import Mathlib

/-!
Verification of the Game of Life repository.

The repository contains two implementations of Conway's Game of Life on a
toroidal grid:

* a JavaScript/React front-end (`App.jsx`, the `App` component): grids are
  arrays of arrays of numbers (`ALIVE = 1`, `DEAD = 0`), with helpers
  `neighbourCount`, `nextGen`, `buildEmptyGrid` and the UI actions
  `toggleCell` and `step`;

* a Java class `GameOfLife`: grids are `boolean[][]` arrays
  (`ALIVE = true`, `DEAD = false`), with `numOfAliveNeighbors`,
  `computeNewGrid`, `nextGeneration` (single and `n`-fold), the
  `totalAliveCells` field with accessor `getTotalAliveCells`, and
  `numOfCommunities` built on a `WeightedQuickUnionUF` disjoint-set.

Both are embedded below: JavaScript grids as `List (List Nat)`, Java grids
as `List (List Bool)`. Machine integers never overflow here (all values are
small non-negative counts and indices), so `Nat`/`Int` model them exactly;
the `(x + d + m) % m` index wrap is computed in `Int` where `%` agrees with
the Java/JS remainder on the non-negative dividends that occur.
-/

/-- Both sources wrap a neighbor index as `(x + d + m) % m` (with `d` in
`{-1, 0, 1}` and `m` the row or column extent), so the dividend is
non-negative and the JS/Java remainder agrees with `Int.emod`. -/
def wrapIdx (x : Nat) (d : Int) (m : Nat) : Nat :=
  (((x : Int) + d + (m : Int)) % (m : Int)).toNat

/-- The eight neighbor offsets. The JS `dirs` array lists them in this
order; the Java nested loops (`i` then `j`, skipping `(0,0)`) visit the
same offsets in the same order. -/
def dirs : List (Int × Int) :=
  [(-1, -1), (-1, 0), (-1, 1),
   (0, -1),           (0, 1),
   (1, -1),  (1, 0),  (1, 1)]

/-- `g` is a rectangular grid with `R` rows and `C` columns. -/
def Rect {α : Type} (g : List (List α)) (R C : Nat) : Prop :=
  g.length = R ∧ ∀ row ∈ g, row.length = C

/-! ### JavaScript side (`App.jsx`, `App` component)

JS `Array.prototype.map` passes the element index to its callback; `jsMapIdx`
is that indexed map. -/

/-- Indexed map starting at index `i`. -/
def mapIdxGo {α β : Type} (f : Nat → α → β) (i : Nat) : List α → List β
  | [] => []
  | a :: l => f i a :: mapIdxGo f (i + 1) l

/-- JS `array.map((x, i) => f i x)`. -/
def jsMapIdx {α β : Type} (f : Nat → α → β) (l : List α) : List β :=
  mapIdxGo f 0 l

/-- Cell access `g[r][c]` on a JS number grid; all accesses in the source
are in range (the wrap guarantees it), so the `getD` defaults are inert. -/
def cellN (g : List (List Nat)) (r c : Nat) : Nat :=
  (g.getD r []).getD c 0

/-- JS `neighbourCount(r, c, g)`: sums the grid values (0 or 1) at the 8
wrapped neighbor coordinates. `rows` and `cols` are the component-state
dimensions captured by the closure. -/
def neighbourCount (rows cols : Nat) (r c : Nat) (g : List (List Nat)) : Nat :=
  dirs.foldl (fun count d =>
    count + cellN g (wrapIdx r d.1 rows) (wrapIdx c d.2 cols)) 0

/-- JS `nextGen(current)`: maps every cell through the two-branch rule
(ALIVE survives on a neighbor count of exactly 2 or 3; DEAD becomes ALIVE
on exactly 3), evaluating counts against the unmodified input grid. -/
def nextGen (rows cols : Nat) (current : List (List Nat)) : List (List Nat) :=
  jsMapIdx (fun r row =>
    jsMapIdx (fun c cell =>
      let n := neighbourCount rows cols r c current
      if cell = 1 then (if n = 2 ∨ n = 3 then 1 else 0)
      else (if n = 3 then 1 else 0)) row) current

/-- JS `buildEmptyGrid(r, c)`. -/
def buildEmptyGrid (r c : Nat) : List (List Nat) :=
  List.replicate r (List.replicate c 0)

/-- The `App` component state touched by the modeled actions. -/
structure AppState where
  rows : Nat
  cols : Nat
  grid : List (List Nat)
  running : Bool
  generation : Nat
deriving DecidableEq

/-- JS `toggleCell(r, c)`: a no-op while running; otherwise copies the grid
and assigns `copy[r][c] = g[r][c] ? DEAD : ALIVE` (JS truthiness: any
non-zero number is truthy). -/
def toggleCell (s : AppState) (r c : Nat) : AppState :=
  if s.running then s
  else
    { s with grid :=
        s.grid.set r ((s.grid.getD r []).set c
          (if (s.grid.getD r []).getD c 0 ≠ 0 then 0 else 1)) }

/-- JS `step()`: a no-op while running; otherwise replaces the grid with
`nextGen(g)` and increments the generation counter. -/
def step (s : AppState) : AppState :=
  if s.running then s
  else { s with grid := nextGen s.rows s.cols s.grid,
                generation := s.generation + 1 }

/-! ### Java side (`GameOfLife` class) -/

/-- Cell access `grid[r][c]` on the Java boolean grid. -/
def cellB (g : List (List Bool)) (r c : Nat) : Bool :=
  (g.getD r []).getD c false

/-- Java `numOfAliveNeighbors(row, col)`: increments a counter for each
ALIVE cell among the 8 wrapped neighbors. The row extent is `grid.length`
and the column extent is `grid[row].length`, as in the source. -/
def numOfAliveNeighbors (g : List (List Bool)) (row col : Nat) : Nat :=
  dirs.foldl (fun neighboringCells d =>
    if cellB g (wrapIdx row d.1 g.length) (wrapIdx col d.2 (g.getD row []).length) then
      neighboringCells + 1
    else neighboringCells) 0

/-- Java `computeNewGrid()`: a fresh `grid.length × grid[0].length` grid
filled by the four-branch rule (underpopulation, overpopulation,
reproduction, else unchanged), reading only the old grid. -/
def computeNewGrid (g : List (List Bool)) : List (List Bool) :=
  (List.range g.length).map (fun row =>
    (List.range (g.getD 0 []).length).map (fun col =>
      let aliveNeighbors := numOfAliveNeighbors g row col
      if cellB g row col = true ∧ aliveNeighbors < 2 then false
      else if cellB g row col = true ∧ aliveNeighbors > 3 then false
      else if cellB g row col = false ∧ aliveNeighbors = 3 then true
      else cellB g row col))

/-- Array assignment `grid[r][c] = v`. -/
def setCell (g : List (List Bool)) (r c : Nat) (v : Bool) : List (List Bool) :=
  g.set r ((g.getD r []).set c v)

/-- The `GameOfLife` instance variables. -/
structure GameOfLifeState where
  grid : List (List Bool)
  totalAliveCells : Nat
deriving DecidableEq

/-- The Java default constructor: a 5x5 grid, all DEAD, then five cells set
ALIVE, and `totalAliveCells = 5`. -/
def defaultGameOfLife : GameOfLifeState :=
  { grid :=
      setCell (setCell (setCell (setCell (setCell
        (List.replicate 5 (List.replicate 5 false)) 1 1 true) 1 3 true)
          2 2 true) 3 2 true) 3 3 true,
    totalAliveCells := 5 }

/-- Java `getTotalAliveCells()`. -/
def getTotalAliveCells (s : GameOfLifeState) : Nat :=
  s.totalAliveCells

/-- Java `nextGeneration()`: assigns `grid = computeNewGrid()`. No other
field is assigned in the method body. -/
def nextGeneration (s : GameOfLifeState) : GameOfLifeState :=
  { s with grid := computeNewGrid s.grid }

/-- Java `nextGeneration(int n)`: `n` successive `grid = computeNewGrid()`
assignments. -/
def nextGenerationN (g : List (List Bool)) : Nat → List (List Bool)
  | 0 => g
  | n + 1 => nextGenerationN (computeNewGrid g) n

/-- The number of ALIVE cells actually present in a grid. -/
def countAliveCells (g : List (List Bool)) : Nat :=
  (g.map (fun row => row.countP (fun b => b))).sum

/-! ### Union-find and `numOfCommunities` -/

/-- Modelled from the spec: the `WeightedQuickUnionUF` class used by
`numOfCommunities` is not in the repository sources. Per spec section 4.3 it
is a disjoint-set structure with one element per grid cell supporting
`union` and `find`, and correctness depends only on the final distinct-root
count over live cells, not on the optimization chosen. We model the
structure as a representative map on cell coordinates; `find` reads the
representative. -/
def ufFind (f : Nat × Nat → Nat × Nat) (p : Nat × Nat) : Nat × Nat :=
  f p

/-- Modelled from the spec: `union` merges the two classes by redirecting
every element of the second root's class to the first root; it is a no-op
when the roots already agree. -/
def ufUnion (f : Nat × Nat → Nat × Nat) (a b : Nat × Nat) :
    Nat × Nat → Nat × Nat :=
  if f a = f b then f else fun z => if f z = f b then f a else f z

/-- All cell coordinates of an `R × C` grid in row-major order, the order
of the Java nested loops. -/
def allCells (R C : Nat) : List (Nat × Nat) :=
  (List.range R).flatMap (fun r => (List.range C).map (fun c => (r, c)))

/-- One iteration of the union phase of Java `numOfCommunities()`: if the
cell is ALIVE, union it with each ALIVE cell among its 8 wrapped neighbors
(extents `grid.length` and `grid[0].length`, as in the source). -/
def unionStep (g : List (List Bool)) (f : Nat × Nat → Nat × Nat)
    (p : Nat × Nat) : Nat × Nat → Nat × Nat :=
  if cellB g p.1 p.2 then
    dirs.foldl (fun f d =>
      if cellB g (wrapIdx p.1 d.1 g.length) (wrapIdx p.2 d.2 (g.getD 0 []).length) then
        ufUnion f p (wrapIdx p.1 d.1 g.length, wrapIdx p.2 d.2 (g.getD 0 []).length)
      else f) f
  else f

/-- The union-find state after the union phase of `numOfCommunities()`. -/
def communityUF (g : List (List Bool)) : Nat × Nat → Nat × Nat :=
  (allCells g.length ((g.getD 0 []).length)).foldl (unionStep g) (fun p => p)

/-- The ALIVE cells in row-major order. -/
def aliveCellsList (g : List (List Bool)) : List (Nat × Nat) :=
  (allCells g.length ((g.getD 0 []).length)).filter (fun p => cellB g p.1 p.2)

/-- Java `numOfCommunities()`: the collection phase appends `find(cell)`
for each ALIVE cell unless already collected, and returns the list size —
the number of distinct representatives over ALIVE cells. -/
def numOfCommunities (g : List (List Bool)) : Nat :=
  (((aliveCellsList g).map (ufFind (communityUF g))).dedup).length

/-- Two cells are 8-adjacent on the torus when one is reached from the
other by some offset in `dirs` under the index wrap. -/
def adjacent8 (R C : Nat) (a b : Nat × Nat) : Prop :=
  (∃ d ∈ dirs, (wrapIdx a.1 d.1 R, wrapIdx a.2 d.2 C) = b) ∨
  (∃ d ∈ dirs, (wrapIdx b.1 d.1 R, wrapIdx b.2 d.2 C) = a)

instance (R C : Nat) (a b : Nat × Nat) : Decidable (adjacent8 R C a b) := by
  unfold adjacent8
  infer_instance

/-! ### The spec's statement of the transition rule -/

/-- The transition rule exactly as the spec states it, in its five-case
form: ALIVE with count < 2 dies, ALIVE with count 2 or 3 survives, ALIVE
with count > 3 dies, DEAD with count 3 is born, DEAD otherwise stays DEAD.
Stated from the spec's words, to be compared with the implementations. -/
def lifeRuleSpec (alive : Bool) (n : Nat) : Bool :=
  if alive then
    if n < 2 then false
    else if n = 2 ∨ n = 3 then true
    else false
  else
    if n = 3 then true else false

/-- The 8 wrapped neighbor coordinates of a cell, in `dirs` order, with the
extents used by Java `numOfAliveNeighbors`. -/
def neighborCoords (g : List (List Bool)) (row col : Nat) : List (Nat × Nat) :=
  dirs.map (fun d => (wrapIdx row d.1 g.length, wrapIdx col d.2 (g.getD row []).length))

/-- The injection of a Java boolean grid into a JS number grid
(`true ↦ 1`, `false ↦ 0`). -/
def gridToNum (g : List (List Bool)) : List (List Nat) :=
  g.map (fun row => row.map (fun b => if b then 1 else 0))

/-! ### List helper lemmas -/

theorem mapIdxGo_length {α β : Type} (f : Nat → α → β) :
    ∀ (l : List α) (i : Nat), (mapIdxGo f i l).length = l.length
  | [], _ => rfl
  | _ :: l, i => by simp [mapIdxGo, mapIdxGo_length f l]

theorem mapIdxGo_getElem? {α β : Type} (f : Nat → α → β) :
    ∀ (l : List α) (i k : Nat), (mapIdxGo f i l)[k]? = Option.map (f (i + k)) l[k]?
  | [], _, k => by simp [mapIdxGo]
  | a :: l, i, 0 => by simp [mapIdxGo]
  | a :: l, i, k + 1 => by
      have h := mapIdxGo_getElem? f l (i + 1) k
      have hik : i + 1 + k = i + (k + 1) := by omega
      simp [mapIdxGo, h, hik]

theorem jsMapIdx_length {α β : Type} (f : Nat → α → β) (l : List α) :
    (jsMapIdx f l).length = l.length :=
  mapIdxGo_length f l 0

theorem jsMapIdx_getElem? {α β : Type} (f : Nat → α → β) (l : List α) (k : Nat) :
    (jsMapIdx f l)[k]? = Option.map (f k) l[k]? := by
  have h := mapIdxGo_getElem? f l 0 k
  simpa [jsMapIdx] using h

theorem mapIdxGo_replicate {α β : Type} (f : Nat → α → β) (a : α) (b : β)
    (hf : ∀ j, f j a = b) :
    ∀ (n i : Nat), mapIdxGo f i (List.replicate n a) = List.replicate n b
  | 0, _ => rfl
  | n + 1, i => by
      show f i a :: mapIdxGo f (i + 1) (List.replicate n a) = _
      rw [hf i, mapIdxGo_replicate f a b hf n (i + 1)]
      rfl

theorem getD_replicate_eval {α : Type} (a d : α) :
    ∀ (n i : Nat), (List.replicate n a).getD i d = if i < n then a else d := by
  intro n i
  rw [List.getD_eq_getElem?_getD, List.getElem?_replicate]
  split <;> rfl

theorem getD_range_map {α : Type} (f : Nat → α) (n k : Nat) (d : α) (h : k < n) :
    ((List.range n).map f).getD k d = f k := by
  rw [List.getD_eq_getElem?_getD, List.getElem?_map, List.getElem?_range h]
  rfl

theorem getD_set_eq {α : Type} (l : List α) (i : Nat) (x d : α) (h : i < l.length) :
    (l.set i x).getD i d = x := by
  rw [List.getD_eq_getElem?_getD, List.getElem?_set_self h]
  rfl

theorem getD_set_ne {α : Type} (l : List α) (i j : Nat) (x d : α) (h : i ≠ j) :
    (l.set i x).getD j d = l.getD j d := by
  rw [List.getD_eq_getElem?_getD, List.getElem?_set_ne h, ← List.getD_eq_getElem?_getD]

theorem set_getD_self {α : Type} (l : List α) (i : Nat) (d : α) (h : i < l.length) :
    l.set i (l.getD i d) = l := by
  apply List.ext_getElem?
  intro n
  rcases eq_or_ne i n with rfl | hne
  · rw [List.getElem?_set_self h, List.getD_eq_getElem?_getD,
      List.getElem?_eq_getElem h]
    rfl
  · exact List.getElem?_set_ne hne

theorem foldl_count {β : Type} (q : β → Bool) :
    ∀ (l : List β) (n : Nat),
      l.foldl (fun cnt d => if q d then cnt + 1 else cnt) n = n + l.countP q
  | [], n => by simp
  | d :: l, n => by
      by_cases h : q d <;>
        simp [List.foldl, h, foldl_count q l, List.countP_cons] <;> omega

theorem foldl_add_eq_foldl_count {β : Type} (v : β → Nat) (q : β → Bool)
    (hv : ∀ d, v d = if q d then 1 else 0) :
    ∀ (l : List β) (n : Nat),
      l.foldl (fun cnt d => cnt + v d) n =
        l.foldl (fun cnt d => if q d then cnt + 1 else cnt) n
  | [], _ => rfl
  | d :: l, n => by
      show (d :: l).foldl (fun cnt d => cnt + v d) n = _
      rw [List.foldl_cons, List.foldl_cons, hv d,
        foldl_add_eq_foldl_count v q hv l]
      by_cases h : q d <;> simp [h]

/-! ### Helper lemmas about the empty grid and iteration -/

theorem cellN_replicate_zero (R C r c : Nat) :
    cellN (List.replicate R (List.replicate C 0)) r c = 0 := by
  unfold cellN
  rw [getD_replicate_eval]
  split
  · rw [getD_replicate_eval]
    split <;> rfl
  · rfl

theorem neighbourCount_replicate_zero (rows cols R C r c : Nat) :
    neighbourCount rows cols r c (List.replicate R (List.replicate C 0)) = 0 := by
  simp [neighbourCount, dirs, List.foldl, cellN_replicate_zero]

theorem nextGenerationN_add (n m : Nat) :
    ∀ g : List (List Bool),
      nextGenerationN g (n + m) = nextGenerationN (nextGenerationN g n) m := by
  induction n with
  | zero =>
      intro g
      rw [Nat.zero_add]
      rfl
  | succ n ih =>
      intro g
      rw [Nat.succ_add]
      show nextGenerationN (computeNewGrid g) (n + m) = _
      rw [ih (computeNewGrid g)]
      rfl

/-! ### Claim theorems -/

/-- C5: starting from the default 5x5 seed with ALIVE cells at exactly
(1,1), (1,3), (2,2), (3,2), (3,3), four applications of the generation
stepper yield the all-DEAD 5x5 grid. -/
theorem default_seed_dead_after_four_generations :
    nextGenerationN defaultGameOfLife.grid 4 =
      List.replicate 5 (List.replicate 5 false) := by
  decide

/-- C2 evaluation at the failing input: after one `nextGeneration()` call on
the default seed, the accessor still reports the constructor's value 5,
while the grid actually holds 4 ALIVE cells — `nextGeneration()` never
updates `totalAliveCells`, contradicting its own doc comment. -/
theorem getTotalAliveCells_stale_after_nextGeneration :
    getTotalAliveCells (nextGeneration defaultGameOfLife) = 5 ∧
    countAliveCells (nextGeneration defaultGameOfLife).grid = 4 := by
  decide

/-- C6: stepping by 0 generations returns the grid unchanged, and stepping
by `n + m` generations equals stepping by `n` and then by `m`. -/
theorem numGenerations_zero_and_additive :
    (∀ g : List (List Bool), nextGenerationN g 0 = g) ∧
    (∀ (g : List (List Bool)) (n m : Nat),
      nextGenerationN g (n + m) = nextGenerationN (nextGenerationN g n) m) :=
  ⟨fun _ => rfl, fun g n m => nextGenerationN_add n m g⟩

/-- C8: applying the generation stepper to the all-DEAD `R × C` grid with
positive dimensions yields the all-DEAD `R × C` grid. -/
theorem nextGen_empty_is_empty (R C : Nat) (hR : 0 < R) (hC : 0 < C) :
    nextGen R C (buildEmptyGrid R C) = buildEmptyGrid R C := by
  unfold nextGen jsMapIdx buildEmptyGrid
  apply mapIdxGo_replicate
  intro r
  show mapIdxGo _ 0 (List.replicate C 0) = List.replicate C 0
  apply mapIdxGo_replicate
  intro c
  simp [neighbourCount_replicate_zero]

/-- C8 witness: the concrete instance at R = 3, C = 4. -/
theorem nextGen_empty_is_empty_witness :
    0 < 3 ∧ 0 < 4 ∧ nextGen 3 4 (buildEmptyGrid 3 4) = buildEmptyGrid 3 4 :=
  ⟨by decide, by decide, nextGen_empty_is_empty 3 4 (by decide) (by decide)⟩

/-- C9: while the simulation is RUNNING, `toggleCell` and `step` are
silently rejected as no-ops: the whole component state (grid, generation
counter, running flag) is returned unchanged, and both actions are total
functions, so no error is signaled. -/
theorem running_rejects_toggle_and_step (s : AppState) (r c : Nat)
    (h : s.running = true) : toggleCell s r c = s ∧ step s = s := by
  constructor <;> simp [toggleCell, step, h]

/-- C9 witness: a concrete running state at which both actions are no-ops. -/
theorem running_rejects_toggle_and_step_witness :
    toggleCell ⟨2, 2, [[1, 0], [0, 0]], true, 3⟩ 0 1 =
        (⟨2, 2, [[1, 0], [0, 0]], true, 3⟩ : AppState) ∧
      step ⟨2, 2, [[1, 0], [0, 0]], true, 3⟩ =
        (⟨2, 2, [[1, 0], [0, 0]], true, 3⟩ : AppState) :=
  running_rejects_toggle_and_step ⟨2, 2, [[1, 0], [0, 0]], true, 3⟩ 0 1 rfl

/-- When the simulation is stopped, `toggleCell` performs the copy-and-assign
update of the source. -/
theorem toggleCell_stopped (s : AppState) (r c : Nat) (h : s.running = false) :
    toggleCell s r c =
      { s with grid := s.grid.set r ((s.grid.getD r []).set c
          (if (s.grid.getD r []).getD c 0 ≠ 0 then 0 else 1)) } := by
  simp [toggleCell, h]

/-- C10: with the simulation stopped and (r, c) in range, `toggleCell` flips
exactly the state of cell (r, c) — ALIVE (1) becomes DEAD (0) and DEAD
becomes ALIVE — leaves every other cell, the row count and every row length
unchanged, and toggling the same cell twice restores the original state. -/
theorem toggleCell_flips_exactly_one_cell (s : AppState) (r c : Nat)
    (hrun : s.running = false)
    (hr : r < s.grid.length) (hc : c < (s.grid.getD r []).length)
    (hbin : (s.grid.getD r []).getD c 0 = 0 ∨ (s.grid.getD r []).getD c 0 = 1) :
    ((s.grid.getD r []).getD c 0 = 1 →
      ((toggleCell s r c).grid.getD r []).getD c 0 = 0) ∧
    ((s.grid.getD r []).getD c 0 = 0 →
      ((toggleCell s r c).grid.getD r []).getD c 0 = 1) ∧
    (∀ r' c', r' ≠ r ∨ c' ≠ c →
      ((toggleCell s r c).grid.getD r' []).getD c' 0 =
        (s.grid.getD r' []).getD c' 0) ∧
    (toggleCell s r c).grid.length = s.grid.length ∧
    (∀ r', ((toggleCell s r c).grid.getD r' []).length =
      (s.grid.getD r' []).length) ∧
    toggleCell (toggleCell s r c) r c = s := by
  have hg : (toggleCell s r c).grid =
      s.grid.set r ((s.grid.getD r []).set c
        (if (s.grid.getD r []).getD c 0 ≠ 0 then 0 else 1)) := by
    rw [toggleCell_stopped s r c hrun]
  have hrow : (toggleCell s r c).grid.getD r [] =
      (s.grid.getD r []).set c
        (if (s.grid.getD r []).getD c 0 ≠ 0 then 0 else 1) := by
    rw [hg]
    exact getD_set_eq _ _ _ _ hr
  refine ⟨?_, ?_, ?_, ?_, ?_, ?_⟩
  · intro h1
    rw [hrow, getD_set_eq _ _ _ _ hc, h1]
    simp
  · intro h0
    rw [hrow, getD_set_eq _ _ _ _ hc, h0]
    simp
  · intro r' c' hne
    rcases eq_or_ne r' r with rfl | hrne
    · rcases hne with hrr | hcc
      · exact absurd rfl hrr
      · rw [hrow, getD_set_ne _ _ _ _ _ (Ne.symm hcc)]
    · rw [hg, getD_set_ne _ _ _ _ _ (Ne.symm hrne)]
  · rw [hg, List.length_set]
  · intro r'
    rcases eq_or_ne r' r with rfl | hrne
    · rw [hrow, List.length_set]
    · rw [hg, getD_set_ne _ _ _ _ _ (Ne.symm hrne)]
  · have hrun2 : (toggleCell s r c).running = false := by
      rw [toggleCell_stopped s r c hrun]
      exact hrun
    rw [toggleCell_stopped (toggleCell s r c) r c hrun2]
    have hcell : ((toggleCell s r c).grid.getD r []).getD c 0 =
        (if (s.grid.getD r []).getD c 0 ≠ 0 then 0 else 1) := by
      rw [hrow]
      exact getD_set_eq _ _ _ _ hc
    have hback : (toggleCell s r c).grid.set r
        (((toggleCell s r c).grid.getD r []).set c
          (if ((toggleCell s r c).grid.getD r []).getD c 0 ≠ 0 then 0 else 1)) =
        s.grid := by
      rw [hcell, hrow, hg, List.set_set, List.set_set]
      have hvv : (if (if (s.grid.getD r []).getD c 0 ≠ 0 then (0 : Nat) else 1) ≠ 0
          then (0 : Nat) else 1) = (s.grid.getD r []).getD c 0 := by
        rcases hbin with h0 | h1
        · rw [h0]
          simp
        · rw [h1]
          simp
      rw [hvv, set_getD_self _ _ _ hc, set_getD_self _ _ _ hr]
    rw [hback]
    have hfields : toggleCell s r c =
        { s with grid := (toggleCell s r c).grid } := by
      rw [toggleCell_stopped s r c hrun]
    rw [hfields]

/-- C10 witness: the concrete instance on a stopped 2x2 state, toggling the
ALIVE corner cell (0, 0). -/
theorem toggleCell_flips_exactly_one_cell_witness :
    (((⟨2, 2, [[1, 0], [0, 1]], false, 0⟩ : AppState).grid.getD 0 []).getD 0 0 = 1 →
      ((toggleCell ⟨2, 2, [[1, 0], [0, 1]], false, 0⟩ 0 0).grid.getD 0 []).getD 0 0 = 0) ∧
    (((⟨2, 2, [[1, 0], [0, 1]], false, 0⟩ : AppState).grid.getD 0 []).getD 0 0 = 0 →
      ((toggleCell ⟨2, 2, [[1, 0], [0, 1]], false, 0⟩ 0 0).grid.getD 0 []).getD 0 0 = 1) ∧
    (∀ r' c', r' ≠ 0 ∨ c' ≠ 0 →
      ((toggleCell ⟨2, 2, [[1, 0], [0, 1]], false, 0⟩ 0 0).grid.getD r' []).getD c' 0 =
        (((⟨2, 2, [[1, 0], [0, 1]], false, 0⟩ : AppState).grid.getD r') []).getD c' 0) ∧
    (toggleCell ⟨2, 2, [[1, 0], [0, 1]], false, 0⟩ 0 0).grid.length =
      (⟨2, 2, [[1, 0], [0, 1]], false, 0⟩ : AppState).grid.length ∧
    (∀ r', ((toggleCell ⟨2, 2, [[1, 0], [0, 1]], false, 0⟩ 0 0).grid.getD r' []).length =
      (((⟨2, 2, [[1, 0], [0, 1]], false, 0⟩ : AppState).grid.getD r') []).length) ∧
    toggleCell (toggleCell ⟨2, 2, [[1, 0], [0, 1]], false, 0⟩ 0 0) 0 0 =
      (⟨2, 2, [[1, 0], [0, 1]], false, 0⟩ : AppState) :=
  toggleCell_flips_exactly_one_cell ⟨2, 2, [[1, 0], [0, 1]], false, 0⟩ 0 0
    rfl (by decide) (by decide) (by decide)

/-! ### Helper lemmas about the index wrap and grid access -/

theorem wrapIdx_lt (x : Nat) (d : Int) (m : Nat) (hm : 0 < m) :
    wrapIdx x d m < m := by
  unfold wrapIdx
  have hmz : (m : Int) ≠ 0 := by omega
  have h1 := Int.emod_nonneg ((x : Int) + d + m) hmz
  have h2 := Int.emod_lt_of_pos ((x : Int) + d + m) (show (0 : Int) < m by omega)
  omega

theorem wrapIdx_zero_offset (x m : Nat) (hx : x < m) : wrapIdx x 0 m = x := by
  unfold wrapIdx
  have h1 : (x : Int) + 0 + m = x + m * 1 := by ring
  rw [h1, Int.add_mul_emod_self_left, Int.emod_eq_of_lt (by omega) (by omega)]
  omega

theorem wrapIdx_zero_neg_one (m : Nat) (hm : 0 < m) : wrapIdx 0 (-1) m = m - 1 := by
  unfold wrapIdx
  have h1 : (((0 : Nat) : Int) + (-1) + (m : Int)) = (m : Int) - 1 := by
    push_cast
    ring
  rw [h1, Int.emod_eq_of_lt (by omega) (by omega)]
  omega

theorem getD_mem {α : Type} (l : List α) (i : Nat) (d : α) (h : i < l.length) :
    l.getD i d ∈ l := by
  rw [List.getD_eq_getElem?_getD, List.getElem?_eq_getElem h]
  exact List.getElem_mem h

theorem rect_row_length {α : Type} (g : List (List α)) (R C r : Nat)
    (hrect : Rect g R C) (hr : r < R) : (g.getD r []).length = C :=
  hrect.2 (g.getD r []) (getD_mem g r [] (by rw [hrect.1]; exact hr))

/-! ### C1 and C4 -/

/-- C1: at every in-range cell, the generation stepper's output equals the
spec's five-case standard rule applied to the cell's current state and its
neighbor count over the unmodified input grid. -/
theorem computeNewGrid_follows_standard_rule (g : List (List Bool)) (r c : Nat)
    (hr : r < g.length) (hc : c < (g.getD 0 []).length) :
    cellB (computeNewGrid g) r c =
      lifeRuleSpec (cellB g r c) (numOfAliveNeighbors g r c) := by
  unfold computeNewGrid
  unfold cellB
  rw [getD_range_map _ _ _ _ hr]
  rw [getD_range_map _ _ _ _ hc]
  unfold lifeRuleSpec
  cases hcell : (g.getD r []).getD c false <;>
    · simp only [hcell]
      split_ifs <;> simp_all <;> omega

/-- C1 witness: the rule evaluated on a concrete 2x3 grid at cell (0, 1). -/
theorem computeNewGrid_follows_standard_rule_witness :
    cellB (computeNewGrid [[true, false, true], [false, true, false]]) 0 1 =
      lifeRuleSpec (cellB [[true, false, true], [false, true, false]] 0 1)
        (numOfAliveNeighbors [[true, false, true], [false, true, false]] 0 1) :=
  computeNewGrid_follows_standard_rule [[true, false, true], [false, true, false]]
    0 1 (by decide) (by decide)

/-- C4: on a rectangular grid with positive dimensions, the neighbor counter
returns the count of ALIVE cells among the 8 toroidal neighbor coordinates
(each offset in row-1..row+1 and col-1..col+1 except the cell itself,
wrapped modulo the extents), the count is at most 8, and the neighbor
coordinates of corner cell (0,0) include (R-1, C-1), (R-1, 0) and
(0, C-1). -/
theorem numOfAliveNeighbors_counts_wrapped_neighbors (g : List (List Bool))
    (R C row col : Nat) (hrect : Rect g R C) (hR : 0 < R) (hC : 0 < C) :
    numOfAliveNeighbors g row col =
      (neighborCoords g row col).countP (fun p => cellB g p.1 p.2) ∧
    numOfAliveNeighbors g row col ≤ 8 ∧
    (R - 1, C - 1) ∈ neighborCoords g 0 0 ∧
    (R - 1, 0) ∈ neighborCoords g 0 0 ∧
    (0, C - 1) ∈ neighborCoords g 0 0 := by
  have hRlen : g.length = R := hrect.1
  have hC0 : (g.getD 0 []).length = C := rect_row_length g R C 0 hrect hR
  have hcount : numOfAliveNeighbors g row col =
      (neighborCoords g row col).countP (fun p => cellB g p.1 p.2) := by
    unfold numOfAliveNeighbors neighborCoords
    rw [foldl_count, List.countP_map, Nat.zero_add]
    rfl
  refine ⟨hcount, ?_, ?_, ?_, ?_⟩
  · rw [hcount]
    calc (neighborCoords g row col).countP (fun p => cellB g p.1 p.2) ≤
        (neighborCoords g row col).length := List.countP_le_length _
      _ = 8 := by
        unfold neighborCoords
        rw [List.length_map]
        rfl
  · refine List.mem_map.mpr ⟨(-1, -1), by simp [dirs], ?_⟩
    rw [hRlen, hC0, wrapIdx_zero_neg_one R hR, wrapIdx_zero_neg_one C hC]
  · refine List.mem_map.mpr ⟨(-1, 0), by simp [dirs], ?_⟩
    rw [hRlen, hC0, wrapIdx_zero_neg_one R hR, wrapIdx_zero_offset 0 C hC]
  · refine List.mem_map.mpr ⟨(0, -1), by simp [dirs], ?_⟩
    rw [hRlen, hC0, wrapIdx_zero_neg_one C hC, wrapIdx_zero_offset 0 R hR]

/-- C4 witness: the concrete instance on a 2x2 grid at the corner (0, 0). -/
theorem numOfAliveNeighbors_counts_wrapped_neighbors_witness :
    numOfAliveNeighbors [[true, false], [false, true]] 0 0 =
      (neighborCoords [[true, false], [false, true]] 0 0).countP
        (fun p => cellB [[true, false], [false, true]] p.1 p.2) ∧
    numOfAliveNeighbors [[true, false], [false, true]] 0 0 ≤ 8 ∧
    (2 - 1, 2 - 1) ∈ neighborCoords [[true, false], [false, true]] 0 0 ∧
    (2 - 1, 0) ∈ neighborCoords [[true, false], [false, true]] 0 0 ∧
    (0, 2 - 1) ∈ neighborCoords [[true, false], [false, true]] 0 0 :=
  numOfAliveNeighbors_counts_wrapped_neighbors [[true, false], [false, true]]
    2 2 0 0 ⟨by decide, by decide⟩ (by decide) (by decide)

/-! ### Helper lemmas for the two-branch / four-branch equivalence -/

theorem getD_map_default {α β : Type} (f : α → β) (l : List α) (i : Nat) (d : α) :
    (l.map f).getD i (f d) = f (l.getD i d) := by
  rw [List.getD_eq_getElem?_getD, List.getD_eq_getElem?_getD, List.getElem?_map]
  cases l[i]? <;> rfl

theorem gridToNum_getD (g : List (List Bool)) (r : Nat) :
    (gridToNum g).getD r [] =
      (g.getD r []).map (fun b => if b then 1 else 0) := by
  unfold gridToNum
  have h0 : ([] : List Nat) =
      (fun row : List Bool => row.map (fun b : Bool => if b then 1 else 0)) [] := rfl
  rw [h0, getD_map_default]

theorem getD_map_bool_num (l : List Bool) (c : Nat) :
    (l.map (fun b => if b then (1 : Nat) else 0)).getD c 0 =
      if l.getD c false then 1 else 0 := by
  rw [List.getD_eq_getElem?_getD, List.getD_eq_getElem?_getD, List.getElem?_map]
  cases l[c]? <;> rfl

theorem cellN_gridToNum (g : List (List Bool)) (r c : Nat) :
    cellN (gridToNum g) r c = if cellB g r c then 1 else 0 := by
  unfold cellN cellB
  rw [gridToNum_getD, getD_map_bool_num]

theorem neighbourCount_gridToNum (g : List (List Bool)) (R C r c : Nat)
    (hrect : Rect g R C) (hr : r < R) :
    neighbourCount R C r c (gridToNum g) = numOfAliveNeighbors g r c := by
  unfold neighbourCount numOfAliveNeighbors
  rw [hrect.1, rect_row_length g R C r hrect hr]
  exact foldl_add_eq_foldl_count _ _ (fun d => cellN_gridToNum g _ _) dirs 0

theorem jsMapIdx_eq_range_map {α β : Type} (f : Nat → α → β) (l : List α) (d : α) :
    jsMapIdx f l = (List.range l.length).map (fun k => f k (l.getD k d)) := by
  apply List.ext_getElem?
  intro k
  rw [jsMapIdx_getElem?, List.getElem?_map]
  by_cases hk : k < l.length
  · rw [List.getElem?_range hk, List.getElem?_eq_getElem hk]
    simp [List.getD_eq_getElem?_getD, List.getElem?_eq_getElem hk]
  · have hk' : l.length ≤ k := by omega
    rw [List.getElem?_eq_none hk',
      List.getElem?_eq_none (by rw [List.length_range]; exact hk')]
    rfl

theorem fourBranch_eq_lifeRuleSpec (g : List (List Bool)) (r c : Nat) :
    (let aliveNeighbors := numOfAliveNeighbors g r c
     if cellB g r c = true ∧ aliveNeighbors < 2 then false
     else if cellB g r c = true ∧ aliveNeighbors > 3 then false
     else if cellB g r c = false ∧ aliveNeighbors = 3 then true
     else cellB g r c) =
    lifeRuleSpec (cellB g r c) (numOfAliveNeighbors g r c) := by
  unfold lifeRuleSpec
  cases hcell : cellB g r c <;>
    · simp only [hcell]
      split_ifs <;> simp_all <;> omega

/-- C3: on every rectangular boolean grid with positive dimensions, the
Java four-branch `computeNewGrid` and the JS two-branch `nextGen` produce
bit-identical output grids (compared through the ALIVE-to-1 injection). -/
theorem two_branch_eq_four_branch (g : List (List Bool)) (R C : Nat)
    (hrect : Rect g R C) (hR : 0 < R) (hC : 0 < C) :
    gridToNum (computeNewGrid g) = nextGen R C (gridToNum g) := by
  have hC0 : (g.getD 0 []).length = C := rect_row_length g R C 0 hrect hR
  have hE1 : gridToNum (computeNewGrid g) =
      (List.range R).map (fun r => (List.range C).map (fun c =>
        if lifeRuleSpec (cellB g r c) (numOfAliveNeighbors g r c)
        then (1 : Nat) else 0)) := by
    unfold gridToNum computeNewGrid
    rw [List.map_map, hrect.1, hC0]
    apply List.map_congr_left
    intro r _
    simp only [Function.comp_apply]
    rw [List.map_map]
    apply List.map_congr_left
    intro c _
    simp only [Function.comp_apply]
    rw [fourBranch_eq_lifeRuleSpec g r c]
  have hE2 : nextGen R C (gridToNum g) =
      (List.range R).map (fun r => (List.range C).map (fun c =>
        if lifeRuleSpec (cellB g r c) (numOfAliveNeighbors g r c)
        then (1 : Nat) else 0)) := by
    unfold nextGen
    rw [jsMapIdx_eq_range_map _ _ ([] : List Nat)]
    have hlen : (gridToNum g).length = R := by
      unfold gridToNum
      rw [List.length_map, hrect.1]
    rw [hlen]
    apply List.map_congr_left
    intro r hrm
    have hrR : r < R := List.mem_range.mp hrm
    rw [jsMapIdx_eq_range_map _ _ (0 : Nat)]
    have hrowlen : ((gridToNum g).getD r []).length = C := by
      rw [gridToNum_getD, List.length_map]
      exact rect_row_length g R C r hrect hrR
    rw [hrowlen]
    apply List.map_congr_left
    intro c _
    have hcell : ((gridToNum g).getD r []).getD c 0 =
        if cellB g r c then 1 else 0 := cellN_gridToNum g r c
    rw [hcell, neighbourCount_gridToNum g R C r c hrect hrR]
    unfold lifeRuleSpec
    clear hE1 hcell hrowlen hlen hrm hC0 hrect hR hC
    cases hb : cellB g r c with
    | false => simp
    | true =>
        simp only [if_true, if_false]
        split_ifs <;> simp_all <;> omega
  rw [hE1, hE2]

/-- C3 witness: the concrete instance on a 2x2 grid. -/
theorem two_branch_eq_four_branch_witness :
    gridToNum (computeNewGrid [[true, true], [false, true]]) =
      nextGen 2 2 (gridToNum [[true, true], [false, true]]) :=
  two_branch_eq_four_branch [[true, true], [false, true]] 2 2
    ⟨by decide, by decide⟩ (by decide) (by decide)

/-! ### Helper lemmas for the community counter -/

theorem mem_allCells (R C : Nat) (p : Nat × Nat) :
    p ∈ allCells R C ↔ p.1 < R ∧ p.2 < C := by
  unfold allCells
  rcases p with ⟨r, c⟩
  simp [List.mem_flatMap, List.mem_range]

theorem ufUnion_self (f : Nat × Nat → Nat × Nat) (p : Nat × Nat) :
    ufUnion f p p = f := by
  unfold ufUnion
  rw [if_pos rfl]

theorem ufUnion_preserves_eq (f : Nat × Nat → Nat × Nat) (u v x y : Nat × Nat)
    (h : f x = f y) : ufUnion f u v x = ufUnion f u v y := by
  unfold ufUnion
  split
  · exact h
  · show (if f x = f v then f u else f x) = (if f y = f v then f u else f y)
    rw [h]

theorem ufUnion_makes_eq (f : Nat × Nat → Nat × Nat) (a b : Nat × Nat) :
    ufUnion f a b a = ufUnion f a b b := by
  unfold ufUnion
  split
  next h => exact h
  next h =>
    show (if f a = f b then f a else f a) = (if f b = f b then f a else f b)
    rw [if_neg h, if_pos rfl]

theorem innerFold_preserves_eq (g : List (List Bool)) (p x y : Nat × Nat) :
    ∀ (l : List (Int × Int)) (f : Nat × Nat → Nat × Nat), f x = f y →
      (l.foldl (fun f d =>
        if cellB g (wrapIdx p.1 d.1 g.length) (wrapIdx p.2 d.2 (g.getD 0 []).length) then
          ufUnion f p (wrapIdx p.1 d.1 g.length, wrapIdx p.2 d.2 (g.getD 0 []).length)
        else f) f) x =
      (l.foldl (fun f d =>
        if cellB g (wrapIdx p.1 d.1 g.length) (wrapIdx p.2 d.2 (g.getD 0 []).length) then
          ufUnion f p (wrapIdx p.1 d.1 g.length, wrapIdx p.2 d.2 (g.getD 0 []).length)
        else f) f) y
  | [], _, h => h
  | d :: l, f, h => by
      apply innerFold_preserves_eq g p x y l
      by_cases hcond : cellB g (wrapIdx p.1 d.1 g.length)
          (wrapIdx p.2 d.2 (g.getD 0 []).length) = true
      · simp only [hcond, if_true]
        exact ufUnion_preserves_eq f p _ x y h
      · simp only [hcond, if_false]
        exact h

theorem unionStep_preserves_eq (g : List (List Bool))
    (f : Nat × Nat → Nat × Nat) (p x y : Nat × Nat) (h : f x = f y) :
    unionStep g f p x = unionStep g f p y := by
  unfold unionStep
  split
  · exact innerFold_preserves_eq g p x y dirs f h
  · exact h

theorem outerFold_preserves_eq (g : List (List Bool)) (x y : Nat × Nat) :
    ∀ (l : List (Nat × Nat)) (f : Nat × Nat → Nat × Nat), f x = f y →
      (l.foldl (unionStep g) f) x = (l.foldl (unionStep g) f) y
  | [], _, h => h
  | p :: l, f, h =>
      outerFold_preserves_eq g x y l (unionStep g f p)
        (unionStep_preserves_eq g f p x y h)

theorem unionStep_establishes (g : List (List Bool))
    (f : Nat × Nat → Nat × Nat) (a b : Nat × Nat)
    (ha : cellB g a.1 a.2 = true) (hb : cellB g b.1 b.2 = true)
    (d : Int × Int) (hd : d ∈ dirs)
    (hw : (wrapIdx a.1 d.1 g.length, wrapIdx a.2 d.2 (g.getD 0 []).length) = b) :
    unionStep g f a a = unionStep g f a b := by
  have hw1 : wrapIdx a.1 d.1 g.length = b.1 := by rw [← hw]
  have hw2 : wrapIdx a.2 d.2 (g.getD 0 []).length = b.2 := by rw [← hw]
  unfold unionStep
  rw [if_pos ha]
  obtain ⟨l1, l2, hsplit⟩ := List.append_of_mem hd
  rw [hsplit, List.foldl_append, List.foldl_cons]
  apply innerFold_preserves_eq g a a b l2
  rw [hw1, hw2, Prod.mk.eta, if_pos hb]
  exact ufUnion_makes_eq _ a b

theorem communityUF_eq_of_step_adjacent (g : List (List Bool)) (a b : Nat × Nat)
    (haMem : a ∈ aliveCellsList g) (hbAlive : cellB g b.1 b.2 = true)
    (d : Int × Int) (hd : d ∈ dirs)
    (hw : (wrapIdx a.1 d.1 g.length, wrapIdx a.2 d.2 (g.getD 0 []).length) = b) :
    communityUF g a = communityUF g b := by
  have haAll : a ∈ allCells g.length ((g.getD 0 []).length) :=
    (List.mem_filter.mp haMem).1
  have haAlive : cellB g a.1 a.2 = true := (List.mem_filter.mp haMem).2
  unfold communityUF
  obtain ⟨l1, l2, hsplit⟩ := List.append_of_mem haAll
  rw [hsplit, List.foldl_append, List.foldl_cons]
  apply outerFold_preserves_eq g a b l2
  exact unionStep_establishes g _ a b haAlive hbAlive d hd hw

theorem alive_mem_pair (g : List (List Bool)) (a b q : Nat × Nat)
    (hcells : aliveCellsList g = [a, b])
    (hq1 : q.1 < g.length) (hq2 : q.2 < (g.getD 0 []).length)
    (hqAlive : cellB g q.1 q.2 = true) : q = a ∨ q = b := by
  have hmem : q ∈ aliveCellsList g :=
    List.mem_filter.mpr ⟨(mem_allCells _ _ q).mpr ⟨hq1, hq2⟩, hqAlive⟩
  rw [hcells] at hmem
  simpa using hmem

theorem innerFold_id (g : List (List Bool)) (a b p : Nat × Nat)
    (hcells : aliveCellsList g = [a, b])
    (hnadj : ¬ adjacent8 g.length ((g.getD 0 []).length) a b)
    (hp1 : p.1 < g.length) (hp2 : p.2 < (g.getD 0 []).length)
    (hpAlive : cellB g p.1 p.2 = true) :
    ∀ (l : List (Int × Int)), (∀ d ∈ l, d ∈ dirs) →
      l.foldl (fun f d =>
        if cellB g (wrapIdx p.1 d.1 g.length) (wrapIdx p.2 d.2 (g.getD 0 []).length) then
          ufUnion f p (wrapIdx p.1 d.1 g.length, wrapIdx p.2 d.2 (g.getD 0 []).length)
        else f) (fun x => x) = fun x => x
  | [], _ => rfl
  | d :: l, hsub => by
      have hstep : (if cellB g (wrapIdx p.1 d.1 g.length)
              (wrapIdx p.2 d.2 (g.getD 0 []).length) then
            ufUnion (fun x : Nat × Nat => x) p
              (wrapIdx p.1 d.1 g.length, wrapIdx p.2 d.2 (g.getD 0 []).length)
          else fun x : Nat × Nat => x) = fun x : Nat × Nat => x := by
        by_cases hcond : cellB g (wrapIdx p.1 d.1 g.length)
            (wrapIdx p.2 d.2 (g.getD 0 []).length) = true
        · simp only [hcond, if_true]
          have hq1 : (wrapIdx p.1 d.1 g.length, wrapIdx p.2 d.2 (g.getD 0 []).length).1 <
              g.length := wrapIdx_lt p.1 d.1 g.length (by omega)
          have hq2 : (wrapIdx p.1 d.1 g.length, wrapIdx p.2 d.2 (g.getD 0 []).length).2 <
              (g.getD 0 []).length := wrapIdx_lt p.2 d.2 ((g.getD 0 []).length) (by omega)
          have hpCase : p = a ∨ p = b :=
            alive_mem_pair g a b p hcells hp1 hp2 hpAlive
          have hqCase : (wrapIdx p.1 d.1 g.length, wrapIdx p.2 d.2 (g.getD 0 []).length) = a ∨
              (wrapIdx p.1 d.1 g.length, wrapIdx p.2 d.2 (g.getD 0 []).length) = b :=
            alive_mem_pair g a b _ hcells hq1 hq2 hcond
          have hdd : d ∈ dirs := hsub d (List.mem_cons_self d l)
          rcases hpCase with hpa | hpb
          · rcases hqCase with hqa | hqb
            · rw [show (wrapIdx p.1 d.1 g.length, wrapIdx p.2 d.2 (g.getD 0 []).length) = p
                from hqa.trans hpa.symm]
              exact ufUnion_self _ p
            · exfalso
              apply hnadj
              exact Or.inl ⟨d, hdd, by rw [← hpa]; exact hqb⟩
          · rcases hqCase with hqa | hqb
            · exfalso
              apply hnadj
              exact Or.inr ⟨d, hdd, by rw [← hpb]; exact hqa⟩
            · rw [show (wrapIdx p.1 d.1 g.length, wrapIdx p.2 d.2 (g.getD 0 []).length) = p
                from hqb.trans hpb.symm]
              exact ufUnion_self _ p
        · simp only [hcond, if_false]
          rfl
      simp only [List.foldl_cons]
      rw [hstep]
      exact innerFold_id g a b p hcells hnadj hp1 hp2 hpAlive l
        (fun e he => hsub e (List.mem_cons_of_mem d he))

theorem unionStep_id (g : List (List Bool)) (a b : Nat × Nat)
    (hcells : aliveCellsList g = [a, b])
    (hnadj : ¬ adjacent8 g.length ((g.getD 0 []).length) a b)
    (p : Nat × Nat) (hp : p ∈ allCells g.length ((g.getD 0 []).length)) :
    unionStep g (fun x => x) p = fun x => x := by
  have hp1 : p.1 < g.length := ((mem_allCells _ _ p).mp hp).1
  have hp2 : p.2 < (g.getD 0 []).length := ((mem_allCells _ _ p).mp hp).2
  unfold unionStep
  by_cases hpAlive : cellB g p.1 p.2 = true
  · rw [if_pos hpAlive]
    exact innerFold_id g a b p hcells hnadj hp1 hp2 hpAlive dirs (fun d hd => hd)
  · rw [if_neg hpAlive]

theorem outerFold_id (g : List (List Bool)) (a b : Nat × Nat)
    (hcells : aliveCellsList g = [a, b])
    (hnadj : ¬ adjacent8 g.length ((g.getD 0 []).length) a b) :
    ∀ (l : List (Nat × Nat)),
      (∀ p ∈ l, p ∈ allCells g.length ((g.getD 0 []).length)) →
      l.foldl (unionStep g) (fun x => x) = fun x => x
  | [], _ => rfl
  | p :: l, hsub => by
      rw [List.foldl_cons, unionStep_id g a b hcells hnadj p (hsub p (List.mem_cons_self p l))]
      exact outerFold_id g a b hcells hnadj l
        (fun q hq => hsub q (List.mem_cons_of_mem p hq))

theorem communityUF_id_of_not_adjacent (g : List (List Bool)) (a b : Nat × Nat)
    (hcells : aliveCellsList g = [a, b])
    (hnadj : ¬ adjacent8 g.length ((g.getD 0 []).length) a b) :
    communityUF g = fun x => x := by
  unfold communityUF
  exact outerFold_id g a b hcells hnadj _ (fun p hp => hp)

/-- C7: the community counter returns 0 on a grid with no ALIVE cell; 1
with exactly one ALIVE cell; 1 with exactly two ALIVE cells that are
8-adjacent (including via toroidal wraparound); and 2 with exactly two
distinct ALIVE cells that are not 8-adjacent. -/
theorem numOfCommunities_small_populations (g : List (List Bool)) :
    (aliveCellsList g = [] → numOfCommunities g = 0) ∧
    (∀ a, aliveCellsList g = [a] → numOfCommunities g = 1) ∧
    (∀ a b, aliveCellsList g = [a, b] →
      adjacent8 g.length ((g.getD 0 []).length) a b → numOfCommunities g = 1) ∧
    (∀ a b, aliveCellsList g = [a, b] → a ≠ b →
      ¬ adjacent8 g.length ((g.getD 0 []).length) a b → numOfCommunities g = 2) := by
  refine ⟨?_, ?_, ?_, ?_⟩
  · intro h
    simp [numOfCommunities, h]
  · intro a h
    simp [numOfCommunities, h]
  · intro a b hcells hadj
    have haMem : a ∈ aliveCellsList g := by
      rw [hcells]
      simp
    have hbMem : b ∈ aliveCellsList g := by
      rw [hcells]
      simp
    have haAlive : cellB g a.1 a.2 = true := (List.mem_filter.mp haMem).2
    have hbAlive : cellB g b.1 b.2 = true := (List.mem_filter.mp hbMem).2
    have hf : communityUF g a = communityUF g b := by
      rcases hadj with ⟨d, hd, hw⟩ | ⟨d, hd, hw⟩
      · exact communityUF_eq_of_step_adjacent g a b haMem hbAlive d hd hw
      · exact (communityUF_eq_of_step_adjacent g b a hbMem haAlive d hd hw).symm
    unfold numOfCommunities
    rw [hcells]
    show ([ufFind (communityUF g) a, ufFind (communityUF g) b].dedup).length = 1
    have hf' : ufFind (communityUF g) a = ufFind (communityUF g) b := hf
    rw [hf', List.dedup_cons_of_mem (by simp),
      List.dedup_cons_of_not_mem (List.not_mem_nil _)]
    rfl
  · intro a b hcells hab hnadj
    have hid := communityUF_id_of_not_adjacent g a b hcells hnadj
    unfold numOfCommunities
    rw [hcells]
    show ([ufFind (communityUF g) a, ufFind (communityUF g) b].dedup).length = 2
    have ha' : ufFind (communityUF g) a = a := by
      show communityUF g a = a
      rw [hid]
    have hb' : ufFind (communityUF g) b = b := by
      show communityUF g b = b
      rw [hid]
    rw [ha', hb', List.dedup_cons_of_not_mem (by simp [hab]),
      List.dedup_cons_of_not_mem (List.not_mem_nil _)]
    rfl

/-- C7 witness: a 2x2 grid with two adjacent ALIVE cells has one community,
and a 4x4 grid with two non-adjacent ALIVE cells has two. -/
theorem numOfCommunities_small_populations_witness :
    numOfCommunities [[true, true], [false, false]] = 1 ∧
    numOfCommunities [[true, false, false, false], [false, false, false, false],
      [false, false, true, false], [false, false, false, false]] = 2 :=
  ⟨(numOfCommunities_small_populations [[true, true], [false, false]]).2.2.1
      (0, 0) (0, 1) (by decide) (by decide),
    (numOfCommunities_small_populations [[true, false, false, false],
        [false, false, false, false], [false, false, true, false],
        [false, false, false, false]]).2.2.2
      (0, 0) (2, 2) (by decide) (by decide) (by decide)⟩
